import Mathlib

/-!
Verification of the pyaci query engine (`pyaci/core/query.py`).

A shallow embedding of the query engine of this repository and proofs about
it.  Python values appearing on the wire are modelled by an inductive `Json`
type; Python machine integers are modelled by `Int`/`Nat` (the quantities
involved — counts, limits, offsets, page numbers — are small, so `int(a / b)`
on positive operands is exact floor division); code that raises an exception
is modelled by `Option`/`Except` results.

The HTTP session object is an external collaborator of the library (it is
injected into `Request`); the spec fixes its interface: a response exposes a
status code, a boolean `ok` meaning a 2xx status, headers, and a JSON body
that may fail to decode.  We model a successful-response oracle
(`Fetch`) for the pagination engine and an `HttpResponse` record for the
status-classification functions.
-/

namespace Pyaci

/-- JSON values as decoded by `req.json()`.  An object is an association
list of its keys in insertion order (Python dicts have no duplicate keys). -/
inductive Json where
  | null : Json
  | bool (b : Bool) : Json
  | num (n : Int) : Json
  | str (s : String) : Json
  | arr (elts : List Json) : Json
  | obj (kvs : List (String × Json)) : Json

/-- Association-list lookup, modelling Python dict subscripting / `.get`
on a decoded JSON object. -/
def jfind (k : String) : List (String × Json) → Option Json
  | [] => none
  | (a, v) :: t => if a = k then some v else jfind k t

/-- Key access `d[k]` / `d.get(k)` on a JSON value known to be an object;
`none` for a missing key (Python: `KeyError` / `None`). -/
def Json.find : Json → String → Option Json
  | .obj kvs, k => jfind k kvs
  | _, _ => none

/-- Python truthiness of a decoded JSON value (`None`, `False`, `0`, `""`,
`[]`, `{}` are falsy). -/
def truthy : Json → Bool
  | .null => false
  | .bool b => b
  | .num n => n != 0
  | .str s => s != ""
  | .arr l => !l.isEmpty
  | .obj kvs => !kvs.isEmpty

/-- Dict access `d.get(k)` with Python's `None` default: a missing key
behaves like JSON null (both are falsy). -/
def Json.getD (j : Json) (k : String) : Json :=
  (j.find k).getD .null

/-- The function `calc_pages(limit, count)` from `query.py`:
`int(count / limit) + (limit % count > 0)`.
For positive operands `int(count / limit)` is floor division (exact, as the
quantities are far below the range where float rounding differs), and the
second addend is the indicator of `limit % count > 0` — the modulo really is
`limit % count` in the source, not `count % limit`. -/
def calc_pages (limit count : Nat) : Nat :=
  count / limit + (if limit % count > 0 then 1 else 0)

/-- The number of pages actually required to cover `count` results at
`limit` results per page: `ceil(count / limit)` (the docstring of
`calc_pages` and the spec). -/
def ceilPages (limit count : Nat) : Nat :=
  (count + limit - 1) / limit

/-- The method `Request.normalize_url`: appends `"/"` when the last character
(`url[-1]`) is not `"/"`.  On the empty string `url[-1]` raises
`IndexError`, modelled by `none`. -/
def normalize_url (url : String) : Option String :=
  match url.toList.getLast? with
  | none => none
  | some c => if c ≠ '/' then some (url ++ "/") else some url

/-- The state a `Request.__init__` call leaves behind, restricted to the
fields the pagination engine reads (`filters` and `token` only decorate
every call uniformly and are not modelled).  `limit`/`offset` are the
optional constructor arguments. -/
structure Request where
  base : String
  url : String
  limit : Option Int
  offset : Option Int
  threading : Bool
deriving Repr, DecidableEq

/-- The constructor `Request.__init__`: normalizes the base (failing on an empty base, as
`normalize_url` does), and sets
`self.url = self.base if not key else f"{self.base}{key}/"` — note the
Python truthiness test `not key`: a key of `None` *or* `0` selects the
collection route.  `key` is the database id, a non-negative integer. -/
def Request.make (base : String) (limit offset : Option Int) (key : Option Nat)
    (threading : Bool) : Option Request :=
  (normalize_url base).map fun b =>
    { base := b
      url := match key with
        | none => b
        | some k => if k ≠ 0 then b ++ toString k ++ "/" else b
      limit := limit
      offset := offset
      threading := threading }

/-- An HTTP response as the spec's session interface exposes it: status
code, headers, and a body that decodes to JSON or fails (`none`). -/
structure HttpResponse where
  status : Nat
  headers : List (String × String)
  body : Option Json

/-- The spec's session interface: `ok` indicates a 2xx status. -/
def ok (status : Nat) : Bool :=
  200 ≤ status && status < 300

/-- HTTP verbs dispatched through `_make_call`. -/
inductive Verb where
  | get | post | put | patch | delete
deriving Repr, DecidableEq

/-- Modelled from the spec: the outcome classification of `_make_call`.
The source raises `AllocationError` and `ContentError`, names that are
referenced but not defined in this snapshot of the repository; per the
spec's error taxonomy they are `AllocationConflict` (409 on a create call)
and `MalformedResponse` (success status with an undecodable body), carried
here as the `allocation` and `content` constructors.  `requestErr` is the
`RequestError` class defined in `query.py`, `deleted` is the `True` a
successful delete returns, and `body` is the decoded JSON of any other
successful call. -/
inductive CallOutcome where
  | allocation (status : Nat) : CallOutcome
  | requestErr (status : Nat) : CallOutcome
  | content (status : Nat) : CallOutcome
  | deleted : CallOutcome
  | body (j : Json) : CallOutcome

/-- The status-classification tail of `_make_call` (after the HTTP call has
produced `resp`):
409 on a `post` raises `AllocationError`; a `delete` returns `True` on `ok`
and raises `RequestError` otherwise; any other verb returns the decoded
body on `ok` (raising `ContentError` when the body is not JSON) and raises
`RequestError` otherwise. -/
def make_call (verb : Verb) (resp : HttpResponse) : CallOutcome :=
  if resp.status = 409 ∧ verb = .post then .allocation resp.status
  else if verb = .delete then
    if ok resp.status then .deleted else .requestErr resp.status
  else if ok resp.status then
    match resp.body with
    | some j => .body j
    | none => .content resp.status
  else .requestErr resp.status

/-- The method `Request.get_version`: returns the `API-Version` response header (the
empty string when absent) when `req.ok or req.status_code == 403`, and
raises `RequestError` (modelled as `.error status`) otherwise. -/
def get_version (resp : HttpResponse) : Except Nat String :=
  if ok resp.status || resp.status == 403 then
    .ok ((resp.headers.lookup "API-Version").getD "")
  else
    .error resp.status

/-- Splitting a character list on `'.'`, the list analogue of
`str.split(".")`. -/
def splitDots : List Char → List (List Char)
  | [] => [[]]
  | c :: rest =>
    if c = '.' then [] :: splitDots rest
    else
      match splitDots rest with
      | [] => [[c]]
      | h :: t => (c :: h) :: t

/-- Parsing one non-empty all-digit version component as a decimal
number. -/
def parseComponent (cs : List Char) : Option Nat :=
  if cs.isEmpty then none
  else
    cs.foldl (fun acc c =>
      acc.bind fun a => if c.isDigit then some (a * 10 + (c.toNat - 48)) else none)
      (some 0)

/-- The parser `packaging.version.parse` restricted to plain release versions
(dot-separated decimal components, which is all the API emits): the list
of numeric components.  Pre/post/dev segments are outside the model. -/
def parseVer (s : String) : Option (List Nat) :=
  (splitDots s.toList).mapM parseComponent

/-- Comparison of parsed release versions, as `packaging` performs it:
componentwise numeric comparison, the shorter tuple padded with zeros. -/
def verLE : List Nat → List Nat → Bool
  | [], _ => true
  | x :: xs, [] => x = 0 && verLE xs []
  | x :: xs, y :: ys =>
    if x < y then true else if y < x then false else verLE xs ys

/-- The URL-selection logic of `Request.get_openapi`, as a function of the
base URL and the version string `get_version` produced: request
`{base}schema/` when `version.parse(v) >= version.parse("3.5")`, and the
legacy `{base}docs/?format=openapi` otherwise.  `none` models the
exceptions of the source (`normalize_url` on an empty base,
`version.parse` on an unparsable version). -/
def get_openapi_url (base apiVersion : String) : Option String :=
  match normalize_url base, parseVer apiVersion, parseVer "3.5" with
  | some nb, some v, some v35 =>
    some (if verLE v35 v then nb ++ "schema/" else nb ++ "docs/?format=openapi")
  | _, _, _ => none

/-- One HTTP GET issued by the pagination engine, projected to the data the
spec talks about: the URL the call goes to, the `limit`/`offset` query
parameters added by the engine (the constant `filters`/auth decoration is
not modelled), and whether the call was made through `url_override` — in
which case `_make_call` sends no query parameters at all. -/
structure Call where
  url : String
  limit : Option Int
  offset : Option Int
  usedOverride : Bool
deriving Repr, DecidableEq

/-- The HTTP oracle behind `_make_call` on the success path of `get`: every
issued call deterministically yields a decoded JSON body.  (Failure
classification is modelled separately by `make_call`.) -/
abbrev Fetch := Call → Json

/-- What one run of the generator `Request.get` produces: the yielded JSON
values in order, the value stored into `self.count`, and the trace of HTTP
calls in the order they were issued. -/
structure GetResult where
  yields : List Json
  count : Int
  calls : List Call

/-- The expression `self.limit or req["count"]`: Python `or` takes the count when the
configured limit is `None` *or* `0` (falsy). -/
def pyOr (limit : Option Int) (count : Int) : Int :=
  match limit with
  | none => count
  | some l => if l = 0 then count else l

/-- The first call `get` issues: when no caller parameters are given and a
limit is configured, `add_params = {"limit": self.limit}`, plus
`"offset": self.offset` when the limit is nonzero (truthy) and an offset
is configured. -/
def firstCall (st : Request) : Call :=
  match st.limit with
  | none => ⟨st.url, none, none, false⟩
  | some l => ⟨st.url, some l, if l ≠ 0 ∧ st.offset.isSome then st.offset else none, false⟩

/-- The loop `while req["next"]:` of sequential `get` after its first
iteration: each iteration re-requests through
`url_override = req["next"]` and yields that response's `results`.
`fuel` bounds the number of iterations (the Python loop runs as long as
the server keeps producing truthy `next` links); exhausted fuel, a missing
`next` or `results` key (Python `KeyError`), a non-list `results`, or a
truthy non-string `next` (unusable as a URL) give `none`. -/
def seqLoop (fetch : Fetch) : Nat → Json → Option (List Json × List Call)
  | fuel, req =>
    match req.find "next" with
    | none => none
    | some nxt =>
      if truthy nxt then
        match nxt with
        | .str u =>
          match fuel with
          | 0 => none
          | fuel + 1 =>
            let c : Call := ⟨u, none, none, true⟩
            match (fetch c).find "results" with
            | some (.arr rs) =>
              (seqLoop fetch fuel (fetch c)).map fun p => (rs ++ p.1, c :: p.2)
            | _ => none
        | _ => none
      else some ([], [])

/-- Sequential pagination after the first page (the `else` branch of `get`,
from `while req["next"]:` on): on the first iteration (`first_run`) the
engine re-requests with explicit parameters
`{"limit": self.limit or req["count"], "offset": len(req["results"])}`
against its own URL, then continues via `seqLoop` on the response.
`firstRes`/`firstCount` are the first response's `results` and `count`. -/
def seqPaged (fetch : Fetch) (st : Request) (fuel : Nat) (first : Json)
    (firstRes : List Json) (firstCount : Int) : Option (List Json × List Call) :=
  match first.find "next" with
  | none => none
  | some nxt =>
    if truthy nxt then
      let c : Call := ⟨st.url, some (pyOr st.limit firstCount), some (firstRes.length : Int), false⟩
      match (fetch c).find "results" with
      | some (.arr rs) =>
        (seqLoop fetch fuel (fetch c)).map fun p => (rs ++ p.1, c :: p.2)
      | _ => none
    else some ([], [])

/-- Modelled from the spec: the method `concurrent_get(ret, page_size,
page_offsets)` is called by `Request.get` but not defined in this snapshot
of the repository.  Per the spec it issues one fetch per offset with parameters
`{"offset": offset, "limit": page_size}` and extends `ret` with each
page's `results` so that results appear in ascending offset order
(concurrency must not reorder results); completion order is invisible in
the result, so the fetches are modelled sequentially over the ascending
offset list. -/
def concurrent_get (fetch : Fetch) (st : Request) (page_size : Nat) :
    List Nat → Option (List Json × List Call)
  | [] => some ([], [])
  | o :: rest =>
    let c : Call := ⟨st.url, some (page_size : Int), some (o : Int), false⟩
    match (fetch c).find "results" with
    | some (.arr rs) =>
      (concurrent_get fetch st page_size rest).map fun p => (rs ++ p.1, c :: p.2)
    | _ => none

/-- The threading branch of `get` once `req.get("next")` is truthy:
`page_size = len(req["results"])`, `pages = calc_pages(page_size, count)`,
`page_offsets = [i * page_size for i in range(1, pages)]`; when
`pages == 1` the next link is fetched once through `url_override` and its
`results` appended, otherwise `concurrent_get` collects the offset pages.
`calc_pages` raises `ZeroDivisionError` when `page_size` or `count` is
zero (`none` here; negative counts are outside the wire contract). -/
def threadedNext (fetch : Fetch) (st : Request) (nxt : Json)
    (rs : List Json) (cnt : Int) : Option (List Json × List Call) :=
  if rs.length = 0 ∨ cnt ≤ 0 then none
  else
    let page_size := rs.length
    let pages := calc_pages page_size cnt.toNat
    let page_offsets := (List.range' 1 (pages - 1)).map (· * page_size)
    if pages = 1 then
      match nxt with
      | .str u =>
        let c : Call := ⟨u, none, none, true⟩
        match (fetch c).find "results" with
        | some (.arr rs2) => some (rs2, [c])
        | _ => none
      | _ => none
    else
      concurrent_get fetch st page_size page_offsets

/-- The generator `Request.get` (called with no caller-supplied
`add_params`), run to completion against the oracle `fetch`.

The branches mirror the source: a response object whose `results` is
present and non-null is a paginated collection (its `count` is stored;
a configured `offset` pins the engine to that single page; `threading`
dispatches the remaining pages; otherwise the `next` chain is walked
sequentially); a bare list yields its elements with `count = len`; a bare
object (or string) yields itself once with `count = len` — the number of
keys (or characters).  `none` models a raised exception (`KeyError` on a
missing `count`/`next`/`results` key, `TypeError` of `len` on a number,
boolean or null response, `ZeroDivisionError` in `calc_pages`) or fuel
exhaustion; a non-numeric `count` and a non-list `results` in a paginated
response are outside the wire contract and also fold to `none`. -/
def Request.get (fetch : Fetch) (st : Request) (fuel : Nat) : Option GetResult :=
  let c0 := firstCall st
  let req := fetch c0
  match req with
  | .obj kvs =>
    match jfind "results" kvs with
    | some .null | none =>
      -- `req.get("results") is not None` is false: a bare single object
      some ⟨[.obj kvs], (kvs.length : Int), [c0]⟩
    | some (.arr rs) =>
      match jfind "count" kvs with
      | some (.num cnt) =>
        if st.offset.isSome then
          some ⟨rs, cnt, [c0]⟩
        else if st.threading then
          let nxt := (Json.obj kvs).getD "next"
          if truthy nxt then
            (threadedNext fetch st nxt rs cnt).map fun p =>
              ⟨rs ++ p.1, cnt, c0 :: p.2⟩
          else
            some ⟨rs, cnt, [c0]⟩
        else
          (seqPaged fetch st fuel (.obj kvs) rs cnt).map fun p =>
            ⟨rs ++ p.1, cnt, c0 :: p.2⟩
      | _ => none
    | some _ => none
  | .arr l => some ⟨l, (l.length : Int), [c0]⟩
  | .str s => some ⟨[.str s], (s.length : Int), [c0]⟩
  | _ => none

/-- One page of a collection: the items from position `off`, at most `l`
of them (the window a well-behaved server returns for
`offset=off, limit=l`). -/
def window (items : List Json) (off l : Nat) : List Json :=
  (items.drop off).take l

/-- A well-behaved paginating server over a fixed collection `items`, used
to state end-to-end pagination properties: every call is answered with the
wire-contract object `{count, next, results}`, where `results` is the
window selected by the call's `offset` (default `0`) and `limit` (default:
everything), and `next` is a fixed non-empty URL exactly when further
items remain beyond that window. -/
def pageServer (items : List Json) (nextUrl : String) : Fetch := fun c =>
  let off := (c.offset.getD 0).toNat
  let l := (c.limit.getD (items.length : Int)).toNat
  .obj [("count", .num items.length),
        ("next", if off + l < items.length then .str nextUrl else .null),
        ("results", .arr (window items off l))]

/-- The follow-the-next-link discipline: starting from response `req`,
every recorded call went through `url_override` (hence carried no query
parameters) to exactly the non-empty string under the previous response's
`"next"` key, and the chain continues from that call's response. -/
def chained (fetch : Fetch) : Json → List Call → Prop
  | _, [] => True
  | req, c :: rest =>
    c.usedOverride = true ∧ c.limit = none ∧ c.offset = none ∧
    req.find "next" = some (.str c.url) ∧
    chained fetch (fetch c) rest

/-- A 15-item collection (the concrete paginated data set used below). -/
def items15 : List Json := (List.range 15).map fun i => .num i

/-- A 25-item collection (the concrete paginated data set used below). -/
def items25 : List Json := (List.range 25).map fun i => .num i

/-- A server whose every response is one bare two-key object. -/
def bareObjServer : Fetch := fun _ =>
  .obj [("a", .num 1), ("b", .num 2)]

/-- A two-page server for exercising sequential pagination with a
configured limit of `0`: the engine's first call (recognisable by its
`limit=0` parameter) is answered with a 1-result first page announcing
`count = 7` and a truthy `next`; every other call gets the final page. -/
def zeroLimitServer : Fetch := fun c =>
  if c.limit = some 0 then
    .obj [("count", .num 7), ("next", .str "u"), ("results", .arr [.num 0])]
  else
    .obj [("count", .num 7), ("next", .null), ("results", .arr [.num 1])]

/-- A two-page server answering the engine's explicit-parameter follow-up
(recognisable by its `offset=1` parameter) with a last page, and anything
else with a 1-result first page that announces `count = 25` and a truthy
`next`; used to witness the sequential-mode call discipline. -/
def seqWitnessServer : Fetch := fun c =>
  if c.offset = some 1 then
    .obj [("count", .num 25), ("next", .null), ("results", .arr [.num 1])]
  else
    .obj [("count", .num 25), ("next", .str "u"), ("results", .arr [.num 0])]

/-! The theorems. -/

/-- Claim C1, evidence of the code bug: at `limit = 10`, `count = 20` — both
positive — `calc_pages` returns 3, while the number of pages needed to cover
20 results at 10 per page is `ceil(20 / 10) = 2`: the source computes
`limit % count` where its own docstring and the spec require the remainder
`count % limit`. -/
theorem calc_pages_flips_modulo_operands :
    calc_pages 10 20 = 3 ∧ ceilPages 10 20 = 2 ∧ calc_pages 10 20 ≠ ceilPages 10 20 := by
  decide

/-- Claim C10: `normalize_url` is total exactly on the non-empty strings:
it maps the empty string to `none` (the source's `url[-1]` raises
`IndexError` there, and `Request` construction with an empty base is
undefined), and any non-empty `url` to a string ending in `"/"`, unchanged
when `url` already ends in `"/"`. -/
theorem normalize_url_total_only_on_nonempty :
    normalize_url "" = none ∧
    (∀ l o k th, Request.make "" l o k th = none) ∧
    ∀ url : String, url ≠ "" →
      ∃ r, normalize_url url = some r ∧ r.toList.getLast? = some '/' ∧
        (url.toList.getLast? = some '/' → r = url) := by
  refine ⟨rfl, fun l o k th => rfl, ?_⟩
  intro url hu
  obtain ⟨c, hlast⟩ : ∃ c, url.toList.getLast? = some c := by
    cases h : url.toList.getLast? with
    | some c => exact ⟨c, rfl⟩
    | none =>
      exfalso
      apply hu
      have hnil : url.toList = [] := by
        cases h2 : url.toList with
        | nil => rfl
        | cons a t =>
          rw [h2] at h
          simp at h
      cases url with
      | mk data =>
        have hd : data = [] := hnil
        rw [hd]
  by_cases hc : c = '/'
  · subst hc
    refine ⟨url, ?_, hlast, fun _ => rfl⟩
    have hl2 : url.data.getLast? = some '/' := hlast
    simp [normalize_url, hl2]
  · refine ⟨url ++ "/", ?_, ?_, ?_⟩
    · have hl2 : url.data.getLast? = some c := hlast
      simp [normalize_url, hl2, hc]
    · have hdata : (url ++ "/").toList = url.toList ++ ['/'] := by
        cases url with
        | mk data => rfl
      rw [hdata, List.getLast?_concat]
    · intro h
      rw [hlast] at h
      exact absurd (Option.some_injective _ h) hc

/-- Witness for C10 at the concrete input `"http://x"`. -/
theorem normalize_url_total_only_on_nonempty_witness :
    ∃ r, normalize_url "http://x" = some r ∧ r.toList.getLast? = some '/' ∧
      ("http://x".toList.getLast? = some '/' → r = "http://x") :=
  normalize_url_total_only_on_nonempty.2.2 "http://x" (by decide)

/-- Claim C9 (amended): for a *nonzero* key the effective URL is the
normalized base followed by the key and a trailing slash; with no key the
effective URL is the normalized base — but so is it for the falsy key `0`,
because the source tests `not key`, not `key is None`. -/
theorem request_url_routing :
    ∀ (base b : String) (l o : Option Int) (th : Bool) (k : Nat),
      normalize_url base = some b → k ≠ 0 →
      (Request.make base l o (some k) th).map Request.url = some (b ++ toString k ++ "/") ∧
      (Request.make base l o none th).map Request.url = some b ∧
      (Request.make base l o (some 0) th).map Request.url = some b := by
  intro base b l o th k hb hk
  simp [Request.make, hb, hk]

/-- Counterexample for C9 as stated: a `Request` constructed with the key
`0` present gets the collection URL, not `base ++ "0" ++ "/"`. -/
theorem request_url_routing_cx :
    (Request.make "http://x/" none none (some 0) false).map Request.url = some "http://x/" ∧
    "http://x/" ≠ "http://x/" ++ "0" ++ "/" := by
  exact ⟨rfl, by decide⟩

/-- Witness for C9 at base `"http://x"` and key `7`. -/
theorem request_url_routing_witness :
    (Request.make "http://x" none none (some 7) false).map Request.url =
      some ("http://x/" ++ toString 7 ++ "/") ∧
    (Request.make "http://x" none none none false).map Request.url = some "http://x/" ∧
    (Request.make "http://x" none none (some 0) false).map Request.url = some "http://x/" :=
  request_url_routing "http://x" "http://x/" none none false 7 rfl (by decide)

/-- Claim C6: on a 409 response, a `post` raises `AllocationError`
(`AllocationConflict`) while a `get` raises plain `RequestError`
(`RequestFailure`), never `AllocationError`. -/
theorem conflict_classification :
    ∀ resp : HttpResponse, resp.status = 409 →
      make_call .post resp = .allocation 409 ∧
      make_call .get resp = .requestErr 409 := by
  intro resp h
  unfold make_call
  rw [h]
  simp [ok]

/-- Witness for C6 at a concrete 409 response. -/
theorem conflict_classification_witness :
    make_call .post ⟨409, [], none⟩ = .allocation 409 ∧
    make_call .get ⟨409, [], none⟩ = .requestErr 409 :=
  conflict_classification ⟨409, [], none⟩ rfl

/-- Claim C7: `get_version` returns the `API-Version` header (with the
empty string standing in for an absent header) exactly when the response
is 2xx or has status 403, and raises `RequestError` for every other
non-2xx status. -/
theorem get_version_spec :
    ∀ resp : HttpResponse,
      ((200 ≤ resp.status ∧ resp.status < 300) ∨ resp.status = 403 →
        get_version resp = .ok ((resp.headers.lookup "API-Version").getD "")) ∧
      (resp.headers.lookup "API-Version" = none →
        (200 ≤ resp.status ∧ resp.status < 300) ∨ resp.status = 403 →
        get_version resp = .ok "") ∧
      (¬(200 ≤ resp.status ∧ resp.status < 300) → resp.status ≠ 403 →
        get_version resp = .error resp.status) := by
  intro resp
  have hok : ∀ h : (200 ≤ resp.status ∧ resp.status < 300) ∨ resp.status = 403,
      (ok resp.status || resp.status == 403) = true := by
    intro h
    rcases h with ⟨h1, h2⟩ | h
    · simp [ok]
      omega
    · simp [h]
  refine ⟨?_, ?_, ?_⟩
  · intro h
    unfold get_version
    rw [if_pos (hok h)]
  · intro habs h
    unfold get_version
    rw [if_pos (hok h), habs]
    rfl
  · intro h1 h2
    unfold get_version
    rw [if_neg]
    simp [ok]
    omega

/-- Witness for C7: a 403 response with no headers yields the empty
string; a 500 response is a hard failure. -/
theorem get_version_spec_witness :
    get_version ⟨403, [], none⟩ = .ok "" ∧
    get_version ⟨500, [], none⟩ = .error 500 :=
  ⟨(get_version_spec ⟨403, [], none⟩).2.1 rfl (Or.inr rfl),
   (get_version_spec ⟨500, [], none⟩).2.2 (by decide) (by decide)⟩

/-- Claim C8: `get_openapi` requests `{base}schema/` exactly when the
detected version is at least `3.5` under componentwise numeric comparison,
and the legacy `{base}docs/?format=openapi` URL otherwise; in particular
version `"3.10"` routes to `schema/` and `"3.4"` to the legacy URL. -/
theorem openapi_version_gating :
    ∀ (base nb v : String) (rel : List Nat),
      normalize_url base = some nb → parseVer v = some rel →
      (get_openapi_url base v =
        some (if verLE [3, 5] rel then nb ++ "schema/" else nb ++ "docs/?format=openapi")) ∧
      (get_openapi_url base v = some (nb ++ "schema/") ↔ verLE [3, 5] rel = true) ∧
      get_openapi_url base "3.10" = some (nb ++ "schema/") ∧
      get_openapi_url base "3.4" = some (nb ++ "docs/?format=openapi") := by
  intro base nb v rel hb hv
  have h35 : parseVer "3.5" = some [3, 5] := by decide
  have h310 : parseVer "3.10" = some [3, 10] := by decide
  have h34 : parseVer "3.4" = some [3, 4] := by decide
  have hroute : get_openapi_url base v =
      some (if verLE [3, 5] rel then nb ++ "schema/" else nb ++ "docs/?format=openapi") := by
    unfold get_openapi_url
    rw [hb, hv, h35]
  refine ⟨hroute, ?_, ?_, ?_⟩
  · constructor
    · intro h
      by_contra hfalse
      rw [hroute, if_neg hfalse] at h
      have heq := Option.some_injective _ h
      have hlen := congrArg String.length heq
      rw [String.length_append, String.length_append] at hlen
      have e1 : "docs/?format=openapi".length = 20 := rfl
      have e2 : "schema/".length = 7 := rfl
      omega
    · intro h
      rw [hroute, if_pos h]
  · unfold get_openapi_url
    rw [hb, h310, h35]
    rfl
  · unfold get_openapi_url
    rw [hb, h34, h35]
    rfl

/-- Witness for C8 at base `"http://x"` and version `"3.6"`. -/
theorem openapi_version_gating_witness :
    (get_openapi_url "http://x" "3.6" =
      some (if verLE [3, 5] [3, 6] then "http://x/" ++ "schema/"
            else "http://x/" ++ "docs/?format=openapi")) ∧
    (get_openapi_url "http://x" "3.6" = some ("http://x/" ++ "schema/") ↔
      verLE [3, 5] [3, 6] = true) ∧
    get_openapi_url "http://x" "3.10" = some ("http://x/" ++ "schema/") ∧
    get_openapi_url "http://x" "3.4" = some ("http://x/" ++ "docs/?format=openapi") :=
  openapi_version_gating "http://x" "http://x/" "3.6" [3, 6] (by decide) (by decide)

/-- Claim C2 (amended): a first response that is a bare JSON object (its
`results` key absent or null) makes `get` yield exactly that object, in a
single HTTP call — but `self.count` is set to `len(req)`, the number of
keys of the object, not to 1. -/
theorem bare_object_single_yield :
    ∀ (fetch : Fetch) (st : Request) (fuel : Nat) (kvs : List (String × Json)),
      fetch (firstCall st) = .obj kvs →
      (jfind "results" kvs = none ∨ jfind "results" kvs = some .null) →
      Request.get fetch st fuel = some ⟨[.obj kvs], (kvs.length : Int), [firstCall st]⟩ := by
  intro fetch st fuel kvs hf hres
  rcases hres with h | h <;> simp only [Request.get, hf, h]

/-- Witness for C2 (amended) on a two-key bare-object response. -/
theorem bare_object_single_yield_witness :
    Request.get bareObjServer ⟨"b/", "b/", none, none, false⟩ 0 =
      some ⟨[.obj [("a", .num 1), ("b", .num 2)]], (2 : Int),
            [firstCall ⟨"b/", "b/", none, none, false⟩]⟩ :=
  bare_object_single_yield bareObjServer ⟨"b/", "b/", none, none, false⟩ 0
    [("a", .num 1), ("b", .num 2)] rfl (Or.inl rfl)

/-- Counterexample for C2 as stated: on a bare two-key object the engine
records `count = 2`, not `count = 1` (while still yielding exactly one
element). -/
theorem bare_object_count_cx :
    (Request.get bareObjServer ⟨"b/", "b/", none, none, false⟩ 0).map
        (fun r => (r.count, r.yields.length)) = some ((2 : Int), 1) ∧ (2 : Int) ≠ 1 :=
  ⟨rfl, by decide⟩

/-- Claim C3: with a configured offset (and a nonzero configured limit) and
no caller parameters, `get` issues exactly one HTTP call carrying that
limit and offset as query parameters, yields exactly the `results` of that
single response, and never follows `next`. -/
theorem offset_single_page :
    ∀ (fetch : Fetch) (st : Request) (fuel : Nat) (l o cnt : Int)
      (kvs : List (String × Json)) (rs : List Json),
      st.limit = some l → l ≠ 0 → st.offset = some o →
      fetch ⟨st.url, some l, some o, false⟩ = .obj kvs →
      jfind "results" kvs = some (.arr rs) →
      jfind "count" kvs = some (.num cnt) →
      Request.get fetch st fuel = some ⟨rs, cnt, [⟨st.url, some l, some o, false⟩]⟩ := by
  intro fetch st fuel l o cnt kvs rs hl hl0 ho hf hres hcnt
  have hfc : firstCall st = ⟨st.url, some l, some o, false⟩ := by
    rw [firstCall, hl, ho]
    simp [hl0]
  simp only [Request.get, hfc, hf, hres, hcnt, ho, Option.isSome_some, if_true]

/-- Witness for C3: offset 10 and limit 10 against a well-behaved 25-item
server yield exactly the window of items 10-19, in one call. -/
theorem offset_single_page_witness :
    Request.get (pageServer items25 "N") ⟨"b/", "b/", some 10, some 10, false⟩ 0 =
      some ⟨window items25 10 10, (25 : Int), [⟨"b/", some 10, some 10, false⟩]⟩ :=
  offset_single_page (pageServer items25 "N") ⟨"b/", "b/", some 10, some 10, false⟩ 0
    10 10 25 [("count", .num 25), ("next", .str "N"), ("results", .arr (window items25 10 10))]
    (window items25 10 10) rfl (by decide) rfl (by rfl) rfl rfl

/-- Unfolding: `seqLoop` fails on a response with no `next` key
(`KeyError`). -/
theorem seqLoop_next_none (fetch : Fetch) (fuel : Nat) (req : Json)
    (h : req.find "next" = none) : seqLoop fetch fuel req = none := by
  rw [seqLoop, h]

/-- Unfolding: `seqLoop` stops cleanly on a falsy `next`. -/
theorem seqLoop_next_falsy (fetch : Fetch) (fuel : Nat) (req : Json) (nxt : Json)
    (h : req.find "next" = some nxt) (ht : ¬truthy nxt = true) :
    seqLoop fetch fuel req = some ([], []) := by
  rw [seqLoop, h]
  exact if_neg ht

/-- Unfolding: `seqLoop` fails on a truthy non-string `next` (unusable as a
URL). -/
theorem seqLoop_next_truthy_nonstr (fetch : Fetch) (fuel : Nat) (req : Json) (nxt : Json)
    (h : req.find "next" = some nxt) (ht : truthy nxt = true)
    (hs : ∀ u, nxt ≠ .str u) : seqLoop fetch fuel req = none := by
  rw [seqLoop, h]
  cases nxt <;> first | exact absurd rfl (hs _) | exact if_pos ht

/-- Unfolding: `seqLoop` with no fuel left on a truthy string `next`. -/
theorem seqLoop_zero_str (fetch : Fetch) (req : Json) (u : String)
    (h : req.find "next" = some (.str u)) (ht : truthy (Json.str u) = true) :
    seqLoop fetch 0 req = none := by
  rw [seqLoop, h]
  exact if_pos ht

/-- Unfolding: one iteration of `seqLoop` on a truthy string `next`. -/
theorem seqLoop_succ_str (fetch : Fetch) (k : Nat) (req : Json) (u : String)
    (h : req.find "next" = some (.str u)) (ht : truthy (Json.str u) = true) :
    seqLoop fetch (k + 1) req =
      (match (fetch ⟨u, none, none, true⟩).find "results" with
       | some (Json.arr rs) =>
         Option.map (fun p => (rs ++ p.1, (⟨u, none, none, true⟩ : Call) :: p.2))
           (seqLoop fetch k (fetch ⟨u, none, none, true⟩))
       | _ => none) := by
  rw [seqLoop, h]
  exact if_pos ht

/-- Every call recorded by `seqLoop` goes through `url_override` to the
previous response's `next` URL: the loop after the first follow-up obeys
the follow-the-next-link discipline. -/
theorem seqLoop_chained (fetch : Fetch) :
    ∀ (fuel : Nat) (req : Json) (ys : List Json) (cs : List Call),
      seqLoop fetch fuel req = some (ys, cs) → chained fetch req cs := by
  intro fuel
  induction fuel with
  | zero =>
    intro req ys cs h
    cases hn : req.find "next" with
    | none =>
      rw [seqLoop_next_none fetch 0 req hn] at h
      exact Option.noConfusion h
    | some nxt =>
      by_cases ht : truthy nxt = true
      · cases hstr : nxt with
        | str u =>
          rw [hstr] at hn ht
          rw [seqLoop_zero_str fetch req u hn ht] at h
          exact Option.noConfusion h
        | null =>
          rw [seqLoop_next_truthy_nonstr fetch 0 req nxt hn ht (by rw [hstr]; intro u hu; exact Json.noConfusion hu)] at h
          exact Option.noConfusion h
        | bool b =>
          rw [seqLoop_next_truthy_nonstr fetch 0 req nxt hn ht (by rw [hstr]; intro u hu; exact Json.noConfusion hu)] at h
          exact Option.noConfusion h
        | num n =>
          rw [seqLoop_next_truthy_nonstr fetch 0 req nxt hn ht (by rw [hstr]; intro u hu; exact Json.noConfusion hu)] at h
          exact Option.noConfusion h
        | arr l =>
          rw [seqLoop_next_truthy_nonstr fetch 0 req nxt hn ht (by rw [hstr]; intro u hu; exact Json.noConfusion hu)] at h
          exact Option.noConfusion h
        | obj kvs =>
          rw [seqLoop_next_truthy_nonstr fetch 0 req nxt hn ht (by rw [hstr]; intro u hu; exact Json.noConfusion hu)] at h
          exact Option.noConfusion h
      · rw [seqLoop_next_falsy fetch 0 req nxt hn ht] at h
        have hcs : cs = [] := by
          injection h with h2
          injection h2 with ha hb
          exact hb.symm
        rw [hcs]
        trivial
  | succ k ih =>
    intro req ys cs h
    cases hn : req.find "next" with
    | none =>
      rw [seqLoop_next_none fetch (k + 1) req hn] at h
      exact Option.noConfusion h
    | some nxt =>
      by_cases ht : truthy nxt = true
      · cases hstr : nxt with
        | str u =>
          rw [hstr] at hn ht
          rw [seqLoop_succ_str fetch k req u hn ht] at h
          cases hr : (fetch ⟨u, none, none, true⟩).find "results" with
          | none =>
            rw [hr] at h
            exact Option.noConfusion h
          | some v =>
            rw [hr] at h
            cases v with
            | arr rs =>
              rcases Option.map_eq_some'.mp h with ⟨p, hp, heq⟩
              have hcs : cs = ⟨u, none, none, true⟩ :: p.2 := (congrArg Prod.snd heq).symm
              rw [hcs]
              exact ⟨rfl, rfl, rfl, hn, ih (fetch ⟨u, none, none, true⟩) p.1 p.2 hp⟩
            | null => exact Option.noConfusion h
            | bool b => exact Option.noConfusion h
            | num n => exact Option.noConfusion h
            | str s => exact Option.noConfusion h
            | obj kvs => exact Option.noConfusion h
        | null =>
          rw [seqLoop_next_truthy_nonstr fetch (k + 1) req nxt hn ht (by rw [hstr]; intro u hu; exact Json.noConfusion hu)] at h
          exact Option.noConfusion h
        | bool b =>
          rw [seqLoop_next_truthy_nonstr fetch (k + 1) req nxt hn ht (by rw [hstr]; intro u hu; exact Json.noConfusion hu)] at h
          exact Option.noConfusion h
        | num n =>
          rw [seqLoop_next_truthy_nonstr fetch (k + 1) req nxt hn ht (by rw [hstr]; intro u hu; exact Json.noConfusion hu)] at h
          exact Option.noConfusion h
        | arr l =>
          rw [seqLoop_next_truthy_nonstr fetch (k + 1) req nxt hn ht (by rw [hstr]; intro u hu; exact Json.noConfusion hu)] at h
          exact Option.noConfusion h
        | obj kvs =>
          rw [seqLoop_next_truthy_nonstr fetch (k + 1) req nxt hn ht (by rw [hstr]; intro u hu; exact Json.noConfusion hu)] at h
          exact Option.noConfusion h
      · rw [seqLoop_next_falsy fetch (k + 1) req nxt hn ht] at h
        have hcs : cs = [] := by
          injection h with h2
          injection h2 with ha hb
          exact hb.symm
        rw [hcs]
        trivial

/-- Claim C5 (amended): in sequential mode, when the first response carries
a truthy `next`, the second HTTP call re-requests with explicit parameters
`limit = self.limit or count` (the configured limit when it is truthy, the
response's total `count` when the configured limit is `None` *or* `0`) and
`offset =` the length of the first page, and every later call goes through
`url_override` to the previous response's `next` URL verbatim, with no
query parameters. -/
theorem sequential_followup_discipline :
    ∀ (fetch : Fetch) (st : Request) (fuel : Nat) (kvs : List (String × Json))
      (rs : List Json) (cnt : Int) (nxt : Json) (r : GetResult),
      st.threading = false → st.offset = none →
      fetch (firstCall st) = .obj kvs →
      jfind "results" kvs = some (.arr rs) →
      jfind "count" kvs = some (.num cnt) →
      jfind "next" kvs = some nxt → truthy nxt = true →
      Request.get fetch st fuel = some r →
      r.calls.get? 0 = some (firstCall st) ∧
      r.calls.get? 1 = some ⟨st.url, some (pyOr st.limit cnt), some (rs.length : Int), false⟩ ∧
      chained fetch (fetch ⟨st.url, some (pyOr st.limit cnt), some (rs.length : Int), false⟩)
        (r.calls.drop 2) := by
  intro fetch st fuel kvs rs cnt nxt r hth ho hf hres hcnt hn ht hr
  have hn2 : (Json.obj kvs).find "next" = some nxt := hn
  simp only [Request.get, hf, hres, hcnt, ho, hth, Option.isSome_none, Bool.false_eq_true,
    if_false, seqPaged, hn2, ht, if_true] at hr
  set c1 : Call := ⟨st.url, some (pyOr st.limit cnt), some (rs.length : Int), false⟩ with hc1
  cases hr2 : (fetch c1).find "results" with
  | none => rw [hr2] at hr; exact Option.noConfusion hr
  | some v =>
    rw [hr2] at hr
    cases v with
    | arr rs2 =>
      rcases Option.map_eq_some'.mp hr with ⟨p, hp, heqr⟩
      rcases Option.map_eq_some'.mp hp with ⟨q, hq, heqp⟩
      have hcalls : r.calls = firstCall st :: c1 :: q.2 := by
        rw [← heqr]
        simp only []
        rw [← heqp]
      refine ⟨?_, ?_, ?_⟩
      · rw [hcalls]; rfl
      · rw [hcalls]; rfl
      · rw [hcalls]
        exact seqLoop_chained fetch fuel (fetch c1) q.1 q.2 hq
    | null => exact Option.noConfusion hr
    | bool b => exact Option.noConfusion hr
    | num n => exact Option.noConfusion hr
    | str s => exact Option.noConfusion hr
    | obj kvs2 => exact Option.noConfusion hr

/-- Counterexample for C5 as stated: with a *configured* limit of `0`, the
first follow-up call carries `limit = 7` (the response's `count`), not the
configured limit `0` — `self.limit or req["count"]` treats the falsy limit
`0` like an absent one. -/
theorem sequential_followup_zero_limit_cx :
    (Request.get zeroLimitServer ⟨"b/", "b/", some 0, none, false⟩ 1).map
        (fun r => r.calls.get? 1) =
      some (some ⟨"b/", some 7, some 1, false⟩) ∧ (7 : Int) ≠ 0 :=
  ⟨rfl, by decide⟩

/-- Witness for C5 (amended) on a concrete two-page sequential run. -/
theorem sequential_followup_discipline_witness :
    ([⟨"b/", some 10, none, false⟩, ⟨"b/", some 10, some 1, false⟩] : List Call).get? 0 =
      some ⟨"b/", some 10, none, false⟩ ∧
    ([⟨"b/", some 10, none, false⟩, ⟨"b/", some 10, some 1, false⟩] : List Call).get? 1 =
      some ⟨"b/", some 10, some 1, false⟩ ∧
    chained seqWitnessServer (seqWitnessServer ⟨"b/", some 10, some 1, false⟩)
      (([⟨"b/", some 10, none, false⟩, ⟨"b/", some 10, some 1, false⟩] : List Call).drop 2) :=
  sequential_followup_discipline seqWitnessServer ⟨"b/", "b/", some 10, none, false⟩ 1
    [("count", .num 25), ("next", .str "u"), ("results", .arr [.num 0])]
    [.num 0] 25 (.str "u")
    ⟨[.num 0, .num 1], 25, [⟨"b/", some 10, none, false⟩, ⟨"b/", some 10, some 1, false⟩]⟩
    rfl rfl rfl rfl rfl rfl rfl rfl

/-- Association-list lookup `results` on a wire-contract collection
object. -/
theorem jfind_wire_results (a b c : Json) :
    jfind "results" [("count", a), ("next", b), ("results", c)] = some c := by
  simp [jfind]

/-- Association-list lookup `count` on a wire-contract collection
object. -/
theorem jfind_wire_count (a b c : Json) :
    jfind "count" [("count", a), ("next", b), ("results", c)] = some a := by
  simp [jfind]

/-- Key lookup `results` on a wire-contract collection object. -/
theorem find_wire_results (a b c : Json) :
    (Json.obj [("count", a), ("next", b), ("results", c)]).find "results" = some c := by
  simp [Json.find, jfind]

/-- Key lookup `count` on a wire-contract collection object. -/
theorem find_wire_count (a b c : Json) :
    (Json.obj [("count", a), ("next", b), ("results", c)]).find "count" = some a := by
  simp [Json.find, jfind]

/-- Key lookup `next` on a wire-contract collection object. -/
theorem find_wire_next (a b c : Json) :
    (Json.obj [("count", a), ("next", b), ("results", c)]).find "next" = some b := by
  simp [Json.find, jfind]

/-- Evaluation of the well-behaved server on a call with explicit
parameters. -/
theorem pageServer_eval (items : List Json) (u url2 : String) (l o : Nat) (ov : Bool) :
    pageServer items u ⟨url2, some (l : Int), some (o : Int), ov⟩ =
      .obj [("count", .num (items.length : Int)),
            ("next", if o + l < items.length then .str u else .null),
            ("results", .arr (window items o l))] := by
  simp [pageServer]

/-- The modelled `concurrent_get` against the well-behaved server returns
the windows at the requested offsets, in the requested (ascending) order,
and records one explicit-parameter call per offset. -/
theorem concurrent_get_pageServer (items : List Json) (u : String) (st : Request) (l : Nat) :
    ∀ offs : List Nat,
      concurrent_get (pageServer items u) st l offs =
        some ((offs.map fun o => window items o l).flatten,
              offs.map fun (o : Nat) => (⟨st.url, some (l : Int), some (o : Int), false⟩ : Call)) := by
  intro offs
  induction offs with
  | nil => rfl
  | cons o rest ih =>
    show (match (pageServer items u ⟨st.url, some (l : Int), some (o : Int), false⟩).find "results" with
          | some (Json.arr rs) =>
            Option.map
              (fun (p : List Json × List Call) =>
                (rs ++ p.1, (⟨st.url, some (l : Int), some (o : Int), false⟩ : Call) :: p.2))
              (concurrent_get (pageServer items u) st l rest)
          | _ => none) = _
    rw [pageServer_eval, find_wire_results, ih]
    rfl

/-- Concatenating the windows at offsets `s*l, (s+1)*l, …, (s+k-1)*l`
recovers the slice of `items` from position `s*l` of length `k*l`. -/
theorem windows_flatten (items : List Json) (l : Nat) :
    ∀ (k s : Nat), ((List.range' s k).map fun i => window items (i * l) l).flatten =
      (items.drop (s * l)).take (k * l) := by
  intro k
  induction k with
  | zero => intro s; simp
  | succ n ih =>
    intro s
    rw [List.range'_succ s n 1, List.map_cons, List.flatten_cons, ih (s + 1)]
    unfold window
    rw [show (s + 1) * l = s * l + l by ring, ← List.drop_drop,
      show (n + 1) * l = l + n * l by ring, List.take_add]

/-- Evaluation of the threading branch when the remaining-page arithmetic
does not hit the `pages == 1` special case: the offset pages are collected
through `concurrent_get`. -/
theorem threadedNext_eval (fetch : Fetch) (st : Request) (nxt : Json) (rs : List Json) (cnt : Int)
    (hrs : rs.length ≠ 0) (hcnt : 0 < cnt) (hp : calc_pages rs.length cnt.toNat ≠ 1) :
    threadedNext fetch st nxt rs cnt =
      concurrent_get fetch st rs.length
        ((List.range' 1 (calc_pages rs.length cnt.toNat - 1)).map (· * rs.length)) := by
  simp only [threadedNext]
  rw [if_neg (not_or.mpr ⟨hrs, not_le.mpr hcnt⟩), if_neg hp]

/-- Claim C4 (amended): with threading enabled, no configured offset, a
configured nonzero limit `l` smaller than the collection, `get` against a
well-behaved paginating server yields the entire collection in ascending
offset order — identical to sequential fetching — dispatching the
remaining pages at offsets `l, 2l, …, (count/l)·l` with explicit
parameters (one offset per remaining page, plus one trailing offset at
`(count/l)·l ≥ count - l` when `l` divides `count`, a consequence of the
`calc_pages` modulo slip); the sequential next-link fetch of the
`pages == 1` special case is *not* taken when exactly one more page
remains. -/
theorem threading_fetches_pages_in_order :
    ∀ (items : List Json) (l : Nat) (u base : String) (fuel : Nat),
      0 < l → l < items.length → u ≠ "" →
      Request.get (pageServer items u) ⟨base, base, some (l : Int), none, true⟩ fuel =
        some ⟨items, (items.length : Int),
          (⟨base, some (l : Int), none, false⟩ : Call) ::
            (List.range' 1 (items.length / l)).map
              (fun i => ⟨base, some (l : Int), some ((i * l : Nat) : Int), false⟩)⟩ := by
  intro items l u base fuel hl hlc hu
  have hfc : firstCall ⟨base, base, some (l : Int), none, true⟩ =
      ⟨base, some (l : Int), none, false⟩ := by
    simp [firstCall]
  have hresp : pageServer items u (⟨base, some (l : Int), none, false⟩ : Call) =
      .obj [("count", .num (items.length : Int)), ("next", .str u),
            ("results", .arr (items.take l))] := by
    have h2 : pageServer items u (⟨base, some (l : Int), none, false⟩ : Call) =
        .obj [("count", .num (items.length : Int)),
              ("next", if 0 + l < items.length then .str u else .null),
              ("results", .arr (window items 0 l))] := by
      simp [pageServer]
    rw [h2, if_pos (by omega)]
    unfold window
    rw [List.drop_zero]
  have hlen : (items.take l).length = l := by
    rw [List.length_take]
    omega
  have htr : truthy (Json.str u) = true := by
    simp [truthy]
    exact hu
  have hpages : calc_pages (items.take l).length ((items.length : Int)).toNat =
      items.length / l + 1 := by
    rw [hlen, Int.toNat_natCast]
    unfold calc_pages
    rw [Nat.mod_eq_of_lt hlc, if_pos hl]
  have hdiv1 : 1 ≤ items.length / l := (Nat.one_le_div_iff hl).mpr hlc.le
  have hthr : threadedNext (pageServer items u) ⟨base, base, some (l : Int), none, true⟩
      (Json.str u) (items.take l) (items.length : Int) =
      concurrent_get (pageServer items u) ⟨base, base, some (l : Int), none, true⟩ l
        ((List.range' 1 (items.length / l)).map (· * l)) := by
    rw [threadedNext_eval _ _ _ _ _ (by omega) (by omega) (by omega), hpages, hlen]
    simp
  simp only [Request.get, hfc, hresp, jfind_wire_results, jfind_wire_count, Json.getD,
    find_wire_next, Option.getD_some, htr, if_true, hthr, concurrent_get_pageServer,
    Option.map_some', Option.isSome_none, Bool.false_eq_true, if_false]
  have hflat : items.take l ++
      ((((List.range' 1 (items.length / l)).map (· * l)).map fun o => window items o l).flatten) =
      items := by
    rw [List.map_map]
    have hw := windows_flatten items l (items.length / l) 1
    rw [show ((fun o => window items o l) ∘ (· * l)) = fun i => window items (i * l) l from rfl,
      hw, one_mul, ← List.take_add]
    apply List.take_of_length_le
    have h1 := Nat.div_add_mod items.length l
    have h2 := Nat.mod_lt items.length hl
    calc items.length = l * (items.length / l) + items.length % l := h1.symm
      _ ≤ l * (items.length / l) + l := by omega
      _ = l + (items.length / l) * l := by ring
  rw [hflat, List.map_map]
  rfl

/-- Counterexample for C4 as stated: against a well-behaved 15-item server
with page size 10, exactly one more page remains beyond the first
(`ceil(15/10) = 2`), yet the engine does *not* fetch it sequentially
through the `next` link — both issued calls carry explicit parameters and
none uses `url_override` (the code's `pages == 1` special case tests
`calc_pages(page_size, count) == 1`, not "one page remains"). -/
theorem threading_one_page_remaining_cx :
    (Request.get (pageServer items15 "N") ⟨"b/", "b/", some 10, none, true⟩ 0).map
        (fun r => (r.yields.length, r.calls)) =
      some (15, [⟨"b/", some 10, none, false⟩, ⟨"b/", some 10, some 10, false⟩]) ∧
    ceilPages 10 15 = 2 ∧
    ([(⟨"b/", some 10, none, false⟩ : Call), ⟨"b/", some 10, some 10, false⟩].all
      fun c => !c.usedOverride) = true :=
  ⟨rfl, rfl, rfl⟩

/-- Witness for C4 (amended): a 25-item collection at page size 10 is
yielded whole, in order, with offset calls at 10 and 20. -/
theorem threading_fetches_pages_in_order_witness :
    Request.get (pageServer items25 "N") ⟨"b/", "b/", some (10 : Int), none, true⟩ 3 =
      some ⟨items25, (items25.length : Int),
        (⟨"b/", some (10 : Int), none, false⟩ : Call) ::
          (List.range' 1 (items25.length / 10)).map
            (fun i => ⟨"b/", some (10 : Int), some ((i * 10 : Nat) : Int), false⟩)⟩ :=
  threading_fetches_pages_in_order items25 10 "N" "b/" 3 (by decide) (by decide) (by decide)

end Pyaci
